import Mathlib

/-!
Verification of the blade-slides-backend conversion pipeline.

This file gives a shallow embedding, in Lean 4, of the pure computational
core of the Figma-to-PowerPoint conversion backend:

* `src/utils/colors.py`  — hex parsing, RGB formatting, color normalization
* `src/utils/fonts.py`   — font-weight predicates
* `src/utils/layouts.py` — slide transform and layer placement
* `src/figma_processor.py` — per-slide layer validation and z-ordering
* `src/pptx_generator.py`  — per-layer emission decisions

Python strings are modelled as `List Char`, Python numbers that flow through
the layout arithmetic as `ℚ` (exact arithmetic in place of IEEE floats, as
usual in shallow embeddings), Python `dict.get` with a default as
`Option.getD`, and code paths that raise `ZeroDivisionError` as `Option`
results.  Python `list.sort`, a stable sort, is modelled by a stable
insertion sort.  Theorems about each claim follow all definitions.
-/

/-! ### Character-level utilities (ASCII, as used by the Python code) -/

/-- Character code is an ASCII hex digit: `[0-9A-Fa-f]`, the character class
of the validation regex in `colors.py`. -/
def isHexDigN (n : Nat) : Bool :=
  (48 ≤ n && n ≤ 57) || (97 ≤ n && n ≤ 102) || (65 ≤ n && n ≤ 70)

/-- Numeric value of an ASCII hex digit code, as computed by Python
`int(s, 16)` digit by digit. -/
def hexValN (n : Nat) : Nat :=
  if 48 ≤ n ∧ n ≤ 57 then n - 48
  else if 97 ≤ n ∧ n ≤ 102 then n - 87
  else if 65 ≤ n ∧ n ≤ 70 then n - 55
  else 0

/-- Code of the lowercase hex digit for value `d`, as produced by Python
`format(·, "x")`. -/
def hexCharN (d : Nat) : Nat := if d < 10 then d + 48 else d + 87

/-- ASCII uppercase of a character code, as Python `str.upper` acts on the
ASCII characters that reach it here. -/
def upperN (n : Nat) : Nat := if 97 ≤ n ∧ n ≤ 122 then n - 32 else n

/-- ASCII lowercase of a character code, as Python `str.lower` acts on the
ASCII characters that reach it here. -/
def lowerN (n : Nat) : Nat := if 65 ≤ n ∧ n ≤ 90 then n + 32 else n

/-- Hex-digit test on characters. -/
def isHexDig (c : Char) : Bool := isHexDigN c.toNat

/-- Hex-digit value of a character. -/
def hexVal (c : Char) : Nat := hexValN c.toNat

/-- Lowercase hex digit character for a value `0 ≤ d ≤ 15`. -/
def hexDigitChar (d : Nat) : Char := Char.ofNat (hexCharN d)

/-- ASCII uppercase of a character. -/
def toUpperChar (c : Char) : Char := Char.ofNat (upperN c.toNat)

/-- ASCII lowercase of a character. -/
def toLowerChar (c : Char) : Char := Char.ofNat (lowerN c.toNat)

/-- Lowercase a string, modelling Python `str.lower` on ASCII data. -/
def lowerStr (s : List Char) : List Char := s.map toLowerChar

/-- Python whitespace characters stripped by `str.strip()`. -/
def isPySpace (c : Char) : Bool :=
  c = ' ' || c = '\t' || c = '\n' || c = '\r' || c = '\x0b' || c = '\x0c'

/-- Python `str.strip()`: drop leading and trailing whitespace. -/
def pyStrip (s : List Char) : List Char :=
  ((s.dropWhile isPySpace).reverse.dropWhile isPySpace).reverse

/-- Python `needle.isPrefix-like` test: `h` starts with `n`. -/
def leads : List Char → List Char → Bool
  | [], _ => true
  | _ :: _, [] => false
  | a :: n, b :: h => decide (a = b) && leads n h

/-- Python substring containment `n in h`. -/
def containsSub (n h : List Char) : Bool :=
  (List.range (h.length + 1)).any fun i => leads n (h.drop i)

/-- Specification-level substring relation: `needle` occurs contiguously in
`hay`. -/
def OccursIn (needle hay : List Char) : Prop :=
  ∃ p s, hay = p ++ needle ++ s

/-- Python `re.match(r"^[0-9A-Fa-f]{n}$", ·)` viewed as a total predicate:
`$` also matches just before a single trailing newline, so the pattern
accepts exactly `n` hex digits optionally followed by one `'\n'`. -/
def pyMatchHex (n : Nat) (l : List Char) : Bool :=
  (decide (l.length = n) && l.all isHexDig) ||
    (decide (l.length = n + 1) && (l.take n).all isHexDig &&
      decide (l.drop n = ['\n']))

/-- Hex digit list of `n` (lowercase), most significant digit first, as
Python `format(·, "x")` renders a nonnegative integer. -/
def natHex (n : Nat) : List Char :=
  if _ : n < 16 then [hexDigitChar n]
  else natHex (n / 16) ++ [hexDigitChar (n % 16)]
termination_by n
decreasing_by exact Nat.div_lt_self (by omega) (by omega)

/-- Left-pad with `'0'` to width 2, as the `02` in Python `f"{·:02x}"`. -/
def pad2 (l : List Char) : List Char := if l.length < 2 then '0' :: l else l

/-- Python `f"{i:02x}"` on an integer: lowercase hex, minimum width 2 with
the sign counted inside the width. -/
def fmt02x (i : ℤ) : List Char :=
  if i < 0 then '-' :: natHex i.natAbs else pad2 (natHex i.natAbs)

/-- Python `int(q)`: truncation toward zero. -/
def pyInt (q : ℚ) : ℤ := if 0 ≤ q then ⌊q⌋ else -⌊-q⌋

/-! ### `src/utils/colors.py` -/

/-- Doubling of `colors.py` line 25: `''.join([c*2 for c in hex_color])`. -/
def doubleChars : List Char → List Char
  | [] => []
  | c :: rest => c :: c :: doubleChars rest

/-- Lines 23-25 of `colors.py`: expand a 3-character core by doubling each
character, leave anything else unchanged. -/
def expandHex3 (h : List Char) : List Char :=
  if h.length = 3 then doubleChars h else h

/-- Lines 27-39 of `colors.py`: validate the stripped core against
`^[0-9A-Fa-f]{6}$` and parse the three byte pairs; on failure return black.
The `try`/`except` around `int(·, 16)` can never fire after the regex, so
it has no observable effect. -/
def parseHexCore (h : List Char) : Nat × Nat × Nat :=
  if pyMatchHex 6 h then
    match h with
    | c1 :: c2 :: c3 :: c4 :: c5 :: c6 :: _ =>
      (hexVal c1 * 16 + hexVal c2, hexVal c3 * 16 + hexVal c4,
       hexVal c5 * 16 + hexVal c6)
    | _ => (0, 0, 0)
  else (0, 0, 0)

/-- `hex_to_rgb` of `colors.py`: falsy input gives black, otherwise strip
all leading `'#'` (Python `lstrip('#')`), expand a 3-character core, then
validate and parse. Total — it never raises. -/
def hex_to_rgb (s : List Char) : Nat × Nat × Nat :=
  if s = [] then (0, 0, 0)
  else parseHexCore (expandHex3 (s.dropWhile fun c => decide (c = '#')))

/-- `rgb_to_hex` of `colors.py`: `f"#{r:02x}{g:02x}{b:02x}".upper()`. -/
def rgb_to_hex (r g b : ℤ) : List Char :=
  ('#' :: (fmt02x r ++ fmt02x g ++ fmt02x b)).map toUpperChar

/-- `figma_rgb_to_hex` of `colors.py` on a dict that has an `r` key: scale
each channel from the 0..1 range by 255, truncate with `int`, format. -/
def figma_rgb_to_hex (r g b : Option ℚ) : List Char :=
  rgb_to_hex (pyInt (r.getD 0 * 255)) (pyInt (g.getD 0 * 255))
    (pyInt (b.getD 0 * 255))

/-- Inputs `normalize_color` can receive: Python `None`, a string, a Figma
RGB dict (channel present iff `some`), or any other truthy value. -/
inductive ColorValue where
  | null
  | str (s : List Char)
  | figmaDict (r g b : Option ℚ)
  | other
deriving DecidableEq

/-- `normalize_color` of `colors.py` lines 74-101. String branch: a string
already starting with `'#'` is returned unchanged; exactly `"transparent"`
or `"none"` gives `None`; a bare 6-hex-digit string gets a `'#'` prefix;
anything else falls back to black. A dict with an `r` key goes through
`figma_rgb_to_hex`; every other value gives black. -/
def normalize_color (v : ColorValue) : Option (List Char) :=
  match v with
  | .null => some "#000000".data
  | .str s =>
    if s = [] then some "#000000".data
    else if leads "#".data s then some s
    else if s = "transparent".data ∨ s = "none".data then none
    else if pyMatchHex 6 s then some ('#' :: s)
    else some "#000000".data
  | .figmaDict r g b =>
    if r.isSome then some (figma_rgb_to_hex r g b) else some "#000000".data
  | .other => some "#000000".data

/-! ### `src/utils/fonts.py` -/

/-- Substrings whose presence in the lowercased weight marks bold
(`fonts.py` line 174). -/
def boldIndicators : List (List Char) :=
  ["bold".data, "semibold".data, "extrabold".data, "600".data, "700".data,
   "800".data, "900".data]

/-- `is_bold_weight` of `fonts.py`: falsy input is not bold, otherwise any
bold indicator contained in the lowercased weight string marks bold. -/
def is_bold_weight (fontWeight : Option (List Char)) : Bool :=
  match fontWeight with
  | none => false
  | some w =>
    if w = [] then false
    else boldIndicators.any fun ind => containsSub ind (lowerStr w)

/-- `is_italic_style` of `fonts.py`: falsy input is not italic, otherwise
`"italic"` or `"oblique"` contained in the lowercased string marks italic. -/
def is_italic_style (fontWeight : Option (List Char)) : Bool :=
  match fontWeight with
  | none => false
  | some w =>
    if w = [] then false
    else containsSub "italic".data (lowerStr w) ||
      containsSub "oblique".data (lowerStr w)

/-! ### `src/utils/layouts.py` -/

/-- Slide dimensions as received from the plugin; `none` models an absent
key, so `dict.get('width', 1920)` becomes `Option.getD · 1920`. -/
structure SlideDims where
  width : Option ℚ
  height : Option ℚ
deriving DecidableEq

/-- The conversion configuration built by `process_figma_data`. -/
structure Config where
  slideWidth : ℚ
  slideHeight : ℚ
  safeMargin : ℚ
deriving DecidableEq

/-- The dictionary returned by `calculate_positioning`. -/
structure Positioning where
  scale : ℚ
  offsetX : ℚ
  offsetY : ℚ
  figmaWidth : ℚ
  figmaHeight : ℚ
  pptWidth : ℚ
  pptHeight : ℚ
  availableWidth : ℚ
  availableHeight : ℚ
deriving DecidableEq

/-- `calculate_positioning` of `layouts.py`. Defaults apply only to absent
keys. A division whose Python counterpart raises `ZeroDivisionError`
(`figma_height = 0` for the aspect, `available_height = 0` for the target
aspect, `figma_width = 0` in the fit-to-width branch) is modelled as
`none`. The comparison `figma_aspect > ppt_aspect` selects fit-to-width,
otherwise fit-to-height. -/
def calculate_positioning (slide : SlideDims) (config : Config) :
    Option Positioning :=
  if slide.height.getD 1080 = 0 then none
  else if config.slideHeight - 2 * config.safeMargin = 0 then none
  else if (config.slideWidth - 2 * config.safeMargin) /
      (config.slideHeight - 2 * config.safeMargin) <
      slide.width.getD 1920 / slide.height.getD 1080 then
    if slide.width.getD 1920 = 0 then none
    else some
      { scale := (config.slideWidth - 2 * config.safeMargin) /
          slide.width.getD 1920
        offsetX := config.safeMargin
        offsetY := config.safeMargin +
          ((config.slideHeight - 2 * config.safeMargin) -
            slide.height.getD 1080 *
              ((config.slideWidth - 2 * config.safeMargin) /
                slide.width.getD 1920)) / 2
        figmaWidth := slide.width.getD 1920
        figmaHeight := slide.height.getD 1080
        pptWidth := config.slideWidth
        pptHeight := config.slideHeight
        availableWidth := config.slideWidth - 2 * config.safeMargin
        availableHeight := config.slideHeight - 2 * config.safeMargin }
  else some
    { scale := (config.slideHeight - 2 * config.safeMargin) /
        slide.height.getD 1080
      offsetX := config.safeMargin +
        ((config.slideWidth - 2 * config.safeMargin) -
          slide.width.getD 1920 *
            ((config.slideHeight - 2 * config.safeMargin) /
              slide.height.getD 1080)) / 2
      offsetY := config.safeMargin
      figmaWidth := slide.width.getD 1920
      figmaHeight := slide.height.getD 1080
      pptWidth := config.slideWidth
      pptHeight := config.slideHeight
      availableWidth := config.slideWidth - 2 * config.safeMargin
      availableHeight := config.slideHeight - 2 * config.safeMargin }

/-- A rectangle in either Figma or PowerPoint coordinates. -/
structure PosQ where
  x : ℚ
  y : ℚ
  width : ℚ
  height : ℚ
deriving DecidableEq

/-- Style data carried by a layer; only the field the pipeline reads for
text formatting decisions is modelled. -/
structure StyleData where
  fontWeight : Option (List Char)
deriving DecidableEq

/-- A processed layer, as built by `process_layers` in
`figma_processor.py`: every key is present, defaults already applied.
`position`/`relativePosition` are `none` when the (falsy) default `{}` was
stored. -/
structure PLayer where
  type : Option (List Char)
  id : Option (List Char)
  name : List Char
  position : Option PosQ
  relativePosition : Option PosQ
  zIndex : ℤ
  depth : ℤ
  style : StyleData
  content : List Char
  imageData : Option (List Char)
  shapeType : Option (List Char)
deriving DecidableEq

/-- Lines 98-104 of `layouts.py`: clamp the size up to the minimum visible
footprint, then clamp the origin into the slide. -/
def boundPosition (raw : PosQ) (positioning : Positioning) : PosQ :=
  { x := max 0 (min raw.x (positioning.pptWidth - max raw.width (1/10)))
    y := max 0 (min raw.y (positioning.pptHeight - max raw.height (1/10)))
    width := max raw.width (1/10)
    height := max raw.height (1/10) }

/-- `calculate_layer_position` of `layouts.py`: relative positioning first,
then absolute positioning scaled, then the origin-with-minimum-size
fallback; the result is always passed through the boundary clamps.
The `config` argument is unused by the source body as well. -/
def calculate_layer_position (layer : PLayer) (positioning : Positioning)
    (_config : Config) : PosQ :=
  boundPosition
    (match layer.relativePosition with
     | some relPos =>
       { x := positioning.offsetX + relPos.x * positioning.availableWidth
         y := positioning.offsetY + relPos.y * positioning.availableHeight
         width := relPos.width * positioning.availableWidth
         height := relPos.height * positioning.availableHeight }
     | none =>
       match layer.position with
       | some pos =>
         { x := positioning.offsetX + pos.x * positioning.scale
           y := positioning.offsetY + pos.y * positioning.scale
           width := pos.width * positioning.scale
           height := pos.height * positioning.scale }
       | none =>
         { x := positioning.offsetX, y := positioning.offsetY,
           width := 1, height := 1/2 })
    positioning

/-! ### `src/figma_processor.py` -/

/-- A raw layer dict from the plugin; `none` models an absent key. -/
structure RawLayer where
  type : Option (List Char)
  id : Option (List Char)
  name : Option (List Char)
  position : Option PosQ
  relativePosition : Option PosQ
  zIndex : Option ℤ
  depth : Option ℤ
  style : Option StyleData
  content : Option (List Char)
  imageData : Option (List Char)
  shapeType : Option (List Char)
deriving DecidableEq

/-- Lines 54-66 of `figma_processor.py`: build the processed layer dict,
applying the documented defaults. -/
def build_processed_layer (l : RawLayer) : PLayer :=
  { type := l.type
    id := l.id
    name := l.name.getD "Untitled Layer".data
    position := l.position
    relativePosition := l.relativePosition
    zIndex := l.zIndex.getD 0
    depth := l.depth.getD 0
    style := l.style.getD ⟨none⟩
    content := l.content.getD []
    imageData := l.imageData
    shapeType := l.shapeType }

/-- Line 69 of `figma_processor.py`: the layer validation filter. -/
def layer_type_valid (l : PLayer) : Bool :=
  decide (l.type = some "TEXT".data ∨ l.type = some "SHAPE".data ∨
    l.type = some "IMAGE".data)

/-- One step of a stable ascending insertion by `zIndex`. -/
def pyInsertZ (a : PLayer) : List PLayer → List PLayer
  | [] => [a]
  | b :: l => if a.zIndex ≤ b.zIndex then a :: b :: l else b :: pyInsertZ a l

/-- Stable ascending sort by `zIndex`, modelling Python
`list.sort(key=lambda x: x.get('zIndex', 0))` (Timsort is stable; a stable
sort is determined by its sortedness and stability, so stable insertion
sort is an exact model). -/
def pySortZ : List PLayer → List PLayer
  | [] => []
  | a :: l => pyInsertZ a (pySortZ l)

/-- `process_layers` of `figma_processor.py`: default-fill each layer, keep
only the validated types, then stable-sort ascending by `zIndex`. -/
def process_layers (layers : List RawLayer) : List PLayer :=
  pySortZ ((layers.map build_processed_layer).filter layer_type_valid)

/-- The configuration literal of `process_figma_data` lines 34-38. -/
def figmaConfig : Config :=
  { slideWidth := 10, slideHeight := 5.625, safeMargin := 0.3 }

/-! ### `src/pptx_generator.py` -/

/-- The text formatting decisions of `add_text_layer` that depend only on
the layer (content, and the bold/italic flags of lines 158-161). -/
structure TextSpec where
  content : List Char
  bold : Bool
  italic : Bool
deriving DecidableEq

/-- An output instruction: what a processed layer adds to the slide. -/
inductive Instr where
  | text (t : TextSpec)
  | shape (shapeType : Option (List Char))
  | image (data : List Char)
deriving DecidableEq

/-- `add_text_layer` of `pptx_generator.py`, lines 144 and 158-161: the
font weight defaults to `"Regular"`, the bold flag is
`'Bold' in font_weight or '700' in font_weight`, the italic flag is
`'Italic' in font_weight` — raw case-sensitive substring tests. -/
def add_text_layer (l : PLayer) : TextSpec :=
  { content := l.content
    bold := containsSub "Bold".data (l.style.fontWeight.getD "Regular".data)
      || containsSub "700".data (l.style.fontWeight.getD "Regular".data)
    italic :=
      containsSub "Italic".data (l.style.fontWeight.getD "Regular".data) }

/-- `process_layer` of `pptx_generator.py` lines 96-122: skip a falsy or
unknown type, skip a text layer whose stripped content is empty, skip an
image layer with falsy image data; otherwise emit one instruction. -/
def process_layer (l : PLayer) : Option Instr :=
  match l.type with
  | none => none
  | some t =>
    if t = [] then none
    else if t = "TEXT".data then
      if pyStrip l.content = [] then none else some (.text (add_text_layer l))
    else if t = "SHAPE".data then some (.shape l.shapeType)
    else if t = "IMAGE".data then
      if l.imageData.getD [] = [] then none
      else some (.image (l.imageData.getD []))
    else none

/-- The per-slide layer loop of `create_presentation` lines 66-72: each
layer is handed to a possibly-raising generator `f`; an exception is caught
and the loop continues with the next layer. -/
def run_slide_layers (f : PLayer → Except (List Char) (Option Instr)) :
    List PLayer → List Instr
  | [] => []
  | l :: ls =>
    match f l with
    | .error _ => run_slide_layers f ls
    | .ok none => run_slide_layers f ls
    | .ok (some i) => i :: run_slide_layers f ls

/-- The non-raising instantiation of the layer generator: exactly the skip
logic of `process_layer`. -/
def okGen : PLayer → Except (List Char) (Option Instr) :=
  fun l => Except.ok (process_layer l)

/-- The emission order of `create_presentation` line 62: the processed
layers of a slide are stable-sorted by `zIndex` once more before painting. -/
def emitted_layer_order (layers : List RawLayer) : List PLayer :=
  pySortZ (process_layers layers)

/-! ### Concrete inputs used by witnesses and counterexamples -/

/-- A slide transform in which an oversized layer will be placed. -/
def c2OverflowPos : Positioning :=
  { scale := 1, offsetX := 0, offsetY := 0, figmaWidth := 1920,
    figmaHeight := 1080, pptWidth := 10, pptHeight := 5,
    availableWidth := 9, availableHeight := 4 }

/-- A shape layer wider and taller than the whole canvas. -/
def c2OverflowLayer : PLayer :=
  { type := some "SHAPE".data, id := none, name := "big".data,
    position := some { x := 0, y := 0, width := 20, height := 20 },
    relativePosition := none, zIndex := 0, depth := 0, style := ⟨none⟩,
    content := [], imageData := none, shapeType := none }

/-- A slide transform with a large canvas. -/
def c2WitnessPos : Positioning :=
  { scale := 1, offsetX := 0, offsetY := 0, figmaWidth := 1920,
    figmaHeight := 1080, pptWidth := 100, pptHeight := 50,
    availableWidth := 90, availableHeight := 40 }

/-- A small layer that fits inside the canvas of `c2WitnessPos`. -/
def c2InsideLayer : PLayer :=
  { type := some "SHAPE".data, id := none, name := "small".data,
    position := some { x := 2, y := 1, width := 4, height := 3 },
    relativePosition := none, zIndex := 0, depth := 0, style := ⟨none⟩,
    content := [], imageData := none, shapeType := none }

/-- A layer with a type outside the supported set. -/
def frameLayer : PLayer :=
  { type := some "FRAME".data, id := none, name := "frame".data,
    position := none, relativePosition := none, zIndex := 0, depth := 0,
    style := ⟨none⟩, content := "x".data, imageData := some "img".data,
    shapeType := none }

/-- A text layer whose content is whitespace only. -/
def emptyTextLayer : PLayer :=
  { type := some "TEXT".data, id := none, name := "empty".data,
    position := none, relativePosition := none, zIndex := 0, depth := 0,
    style := ⟨none⟩, content := "   ".data, imageData := none,
    shapeType := none }

/-- An image layer with no image data. -/
def emptyImageLayer : PLayer :=
  { type := some "IMAGE".data, id := none, name := "noimg".data,
    position := none, relativePosition := none, zIndex := 0, depth := 0,
    style := ⟨none⟩, content := [], imageData := none, shapeType := none }

/-- A text layer with real content. -/
def goodTextLayer : PLayer :=
  { type := some "TEXT".data, id := none, name := "good".data,
    position := none, relativePosition := none, zIndex := 0, depth := 0,
    style := ⟨none⟩, content := "hello".data, imageData := none,
    shapeType := none }

/-- A text layer whose Figma font weight is the lowercase string "bold". -/
def lowerBoldLayer : PLayer :=
  { type := some "TEXT".data, id := none, name := "t".data,
    position := none, relativePosition := none, zIndex := 0, depth := 0,
    style := ⟨some "bold".data⟩, content := "hi".data, imageData := none,
    shapeType := none }

/-! ### Helper lemmas: characters and hex formatting -/

theorem char_toNat_ofNat (n : Nat) (h : n < 55296) :
    (Char.ofNat n).toNat = n := by
  have hv : n.isValidChar := Or.inl h
  unfold Char.ofNat
  rw [dif_pos hv]
  rfl

theorem isHexDigN_lt {n : Nat} (h : isHexDigN n = true) : n < 128 := by
  simp only [isHexDigN, Bool.or_eq_true, Bool.and_eq_true,
    decide_eq_true_eq] at h
  omega

theorem hexValN_lt (n : Nat) : hexValN n < 16 := by
  unfold hexValN
  split_ifs <;> omega

theorem upper_hexChar {c : Char} (h : isHexDig c = true) :
    toUpperChar (hexDigitChar (hexVal c)) = toUpperChar c := by
  have hb : c.toNat < 128 := isHexDigN_lt h
  have h1 : hexCharN (hexValN c.toNat) < 55296 := by
    have := hexValN_lt c.toNat
    unfold hexCharN
    split_ifs <;> omega
  have key : ∀ m, m < 128 → isHexDigN m = true →
      upperN (hexCharN (hexValN m)) = upperN m := by decide
  unfold toUpperChar hexDigitChar hexVal
  rw [char_toNat_ofNat _ h1]
  exact congrArg Char.ofNat (key _ hb h)

theorem natHex_lt {n : Nat} (h : n < 16) : natHex n = [hexDigitChar n] := by
  rw [natHex]
  simp [h]

theorem natHex_ge {n : Nat} (h : ¬ n < 16) :
    natHex n = natHex (n / 16) ++ [hexDigitChar (n % 16)] := by
  rw [natHex]
  simp [h]

theorem fmt02x_byte {n : Nat} (h : n ≤ 255) :
    fmt02x (n : ℤ) = [hexDigitChar (n / 16), hexDigitChar (n % 16)] := by
  unfold fmt02x
  rw [if_neg (not_lt.mpr (Int.natCast_nonneg n)), Int.natAbs_ofNat]
  by_cases h16 : n < 16
  · rw [natHex_lt h16]
    unfold pad2
    rw [if_pos (by simp)]
    rw [Nat.div_eq_of_lt h16, Nat.mod_eq_of_lt h16]
    rfl
  · rw [natHex_ge h16, natHex_lt (by omega)]
    unfold pad2
    rw [if_neg (by simp)]
    rfl

theorem pairFmt {a b : Char} (ha : isHexDig a = true)
    (hb : isHexDig b = true) :
    (fmt02x ((hexVal a * 16 + hexVal b : Nat) : ℤ)).map toUpperChar =
      [toUpperChar a, toUpperChar b] := by
  have hva := hexValN_lt a.toNat
  have hvb := hexValN_lt b.toNat
  have h255 : hexVal a * 16 + hexVal b ≤ 255 := by unfold hexVal; omega
  rw [fmt02x_byte h255]
  have hdiv : (hexVal a * 16 + hexVal b) / 16 = hexVal a := by
    unfold hexVal; omega
  have hmod : (hexVal a * 16 + hexVal b) % 16 = hexVal b := by
    unfold hexVal; omega
  rw [hdiv, hmod]
  simp only [List.map]
  rw [upper_hexChar ha, upper_hexChar hb]

/-! ### Helper lemmas: substrings -/

theorem leads_iff (n : List Char) : ∀ h : List Char,
    leads n h = true ↔ ∃ t, h = n ++ t := by
  induction n with
  | nil =>
    intro h
    simp [leads]
  | cons a n ih =>
    intro h
    cases h with
    | nil => simp [leads]
    | cons b h =>
      simp only [leads, Bool.and_eq_true, decide_eq_true_eq, ih,
        List.cons_append, List.cons.injEq]
      constructor
      · rintro ⟨rfl, t, rfl⟩
        exact ⟨t, rfl, rfl⟩
      · rintro ⟨t, rfl, rfl⟩
        exact ⟨rfl, t, rfl⟩

theorem containsSub_iff (n h : List Char) :
    containsSub n h = true ↔ OccursIn n h := by
  unfold containsSub OccursIn
  rw [List.any_eq_true]
  constructor
  · rintro ⟨i, hi, hl⟩
    obtain ⟨t, ht⟩ := (leads_iff n _).mp hl
    refine ⟨h.take i, t, ?_⟩
    conv_lhs => rw [← List.take_append_drop i h]
    rw [ht, List.append_assoc]
  · rintro ⟨p, s, rfl⟩
    refine ⟨p.length, ?_, ?_⟩
    · rw [List.mem_range]
      simp [List.length_append]
      omega
    · rw [List.append_assoc, List.drop_left]
      exact (leads_iff n _).mpr ⟨s, rfl⟩

/-! ### Helper lemmas: stable sorting by zIndex -/

theorem mem_pyInsertZ {x a : PLayer} : ∀ {l : List PLayer},
    x ∈ pyInsertZ a l ↔ x = a ∨ x ∈ l := by
  intro l
  induction l with
  | nil => simp [pyInsertZ]
  | cons b l ih =>
    by_cases hab : a.zIndex ≤ b.zIndex
    · simp [pyInsertZ, hab]
    · simp only [pyInsertZ, if_neg hab, List.mem_cons, ih]
      tauto

theorem pairwise_pyInsertZ {a : PLayer} : ∀ {l : List PLayer},
    List.Pairwise (fun u v : PLayer => u.zIndex ≤ v.zIndex) l →
    List.Pairwise (fun u v : PLayer => u.zIndex ≤ v.zIndex)
      (pyInsertZ a l) := by
  intro l
  induction l with
  | nil => intro _; simp [pyInsertZ]
  | cons b l ih =>
    intro h
    rw [List.pairwise_cons] at h
    by_cases hab : a.zIndex ≤ b.zIndex
    · rw [pyInsertZ, if_pos hab, List.pairwise_cons]
      refine ⟨?_, List.pairwise_cons.mpr h⟩
      intro x hx
      rcases List.mem_cons.mp hx with rfl | hx
      · exact hab
      · exact le_trans hab (h.1 x hx)
    · rw [pyInsertZ, if_neg hab, List.pairwise_cons]
      refine ⟨?_, ih h.2⟩
      intro x hx
      rcases mem_pyInsertZ.mp hx with rfl | hx
      · exact le_of_not_le hab
      · exact h.1 x hx

theorem pairwise_pySortZ : ∀ l : List PLayer,
    List.Pairwise (fun u v : PLayer => u.zIndex ≤ v.zIndex) (pySortZ l) := by
  intro l
  induction l with
  | nil => simp [pySortZ]
  | cons a l ih => exact pairwise_pyInsertZ ih

theorem filter_pyInsertZ (z : ℤ) (a : PLayer) : ∀ l : List PLayer,
    (pyInsertZ a l).filter (fun u => decide (u.zIndex = z)) =
      if a.zIndex = z then
        a :: l.filter (fun u => decide (u.zIndex = z))
      else l.filter (fun u => decide (u.zIndex = z)) := by
  intro l
  induction l with
  | nil =>
    simp only [pyInsertZ, List.filter]
    split_ifs with h <;> simp [h]
  | cons b l ih =>
    by_cases hab : a.zIndex ≤ b.zIndex
    · rw [pyInsertZ, if_pos hab]
      simp only [List.filter]
      split_ifs with h <;> simp [h]
    · rw [pyInsertZ, if_neg hab]
      simp only [List.filter, ih]
      by_cases haz : a.zIndex = z
      · have hbz : ¬ b.zIndex = z := by omega
        simp [haz, hbz]
      · simp only [if_neg haz]

theorem filter_pySortZ (z : ℤ) : ∀ l : List PLayer,
    (pySortZ l).filter (fun u => decide (u.zIndex = z)) =
      l.filter (fun u => decide (u.zIndex = z)) := by
  intro l
  induction l with
  | nil => rfl
  | cons a l ih =>
    rw [pySortZ, filter_pyInsertZ]
    by_cases haz : a.zIndex = z
    · simp [haz, List.filter, ih]
    · simp [haz, List.filter, ih]

/-! ### Helper lemmas: the per-slide layer loop -/

theorem run_slide_layers_append
    (f : PLayer → Except (List Char) (Option Instr)) :
    ∀ l1 l2 : List PLayer,
    run_slide_layers f (l1 ++ l2) =
      run_slide_layers f l1 ++ run_slide_layers f l2 := by
  intro l1 l2
  induction l1 with
  | nil => rfl
  | cons a l ih =>
    cases hfa : f a with
    | error e => simp [run_slide_layers, hfa, ih]
    | ok o =>
      cases o with
      | none => simp [run_slide_layers, hfa, ih]
      | some i => simp [run_slide_layers, hfa, ih]

/-! ### Helper lemmas: layer placement bounds -/

theorem boundPosition_props (raw : PosQ) (p : Positioning) :
    (1/10 : ℚ) ≤ (boundPosition raw p).width ∧
    (1/10 : ℚ) ≤ (boundPosition raw p).height ∧
    0 ≤ (boundPosition raw p).x ∧
    0 ≤ (boundPosition raw p).y ∧
    ((boundPosition raw p).width ≤ p.pptWidth →
      (boundPosition raw p).x + (boundPosition raw p).width ≤ p.pptWidth) ∧
    ((boundPosition raw p).height ≤ p.pptHeight →
      (boundPosition raw p).y + (boundPosition raw p).height ≤ p.pptHeight) := by
  unfold boundPosition
  refine ⟨le_max_right _ _, le_max_right _ _, le_max_left _ _,
    le_max_left _ _, ?_, ?_⟩
  · intro h
    have h0 : (0 : ℚ) ≤ p.pptWidth - max raw.width (1/10) := by linarith
    have hx : max 0 (min raw.x (p.pptWidth - max raw.width (1/10))) ≤
        p.pptWidth - max raw.width (1/10) :=
      max_le h0 (min_le_right _ _)
    linarith
  · intro h
    have h0 : (0 : ℚ) ≤ p.pptHeight - max raw.height (1/10) := by linarith
    have hy : max 0 (min raw.y (p.pptHeight - max raw.height (1/10))) ≤
        p.pptHeight - max raw.height (1/10) :=
      max_le h0 (min_le_right _ _)
    linarith

/-! ### Claim theorems -/

/-- C1: for any source dimensions `fw, fh > 0`, margin `m > 0` and target
`W × H` with positive available area on both axes, `calculate_positioning`
succeeds and returns a transform under which the scaled source box lies in
`[m, W - m] × [m, H - m]`, fills the fitted axis exactly, and is centered
on the other axis (the offset beyond the margin is half the leftover
space). -/
theorem calculate_positioning_fits_and_centers
    (fw fh W H m : ℚ) (hfw : 0 < fw) (hfh : 0 < fh) (_hm : 0 < m)
    (_haw : 0 < W - 2 * m) (hah : 0 < H - 2 * m) :
    ∃ p, calculate_positioning { width := some fw, height := some fh }
        { slideWidth := W, slideHeight := H, safeMargin := m } = some p ∧
      m ≤ p.offsetX ∧ p.offsetX + fw * p.scale ≤ W - m ∧
      m ≤ p.offsetY ∧ p.offsetY + fh * p.scale ≤ H - m ∧
      ((fw * p.scale = W - 2 * m ∧
          p.offsetY - m = ((H - 2 * m) - fh * p.scale) / 2) ∨
       (fh * p.scale = H - 2 * m ∧
          p.offsetX - m = ((W - 2 * m) - fw * p.scale) / 2)) := by
  unfold calculate_positioning
  simp only [Option.getD_some]
  rw [if_neg hfh.ne', if_neg hah.ne']
  by_cases hasp : (W - 2 * m) / (H - 2 * m) < fw / fh
  · rw [if_pos hasp, if_neg hfw.ne']
    have hfs : fw * ((W - 2 * m) / fw) = W - 2 * m := by
      rw [mul_comm]
      exact div_mul_cancel₀ _ hfw.ne'
    have hkey : fh * ((W - 2 * m) / fw) ≤ H - 2 * m := by
      rw [div_lt_div_iff₀ hah hfh] at hasp
      rw [mul_comm, div_mul_eq_mul_div, div_le_iff₀ hfw]
      nlinarith [hasp]
    refine ⟨_, rfl, le_refl m, ?_, ?_, ?_, Or.inl ⟨hfs, by ring⟩⟩
    · simp only
      rw [hfs]
      linarith
    · simp only
      linarith
    · simp only
      linarith
  · rw [if_neg hasp]
    have hasp2 : fw / fh ≤ (W - 2 * m) / (H - 2 * m) := not_lt.mp hasp
    have hfs : fh * ((H - 2 * m) / fh) = H - 2 * m := by
      rw [mul_comm]
      exact div_mul_cancel₀ _ hfh.ne'
    have hkey : fw * ((H - 2 * m) / fh) ≤ W - 2 * m := by
      rw [div_le_div_iff₀ hfh hah] at hasp2
      rw [mul_comm, div_mul_eq_mul_div, div_le_iff₀ hfh]
      nlinarith [hasp2]
    refine ⟨_, rfl, ?_, ?_, le_refl m, ?_, Or.inr ⟨hfs, by ring⟩⟩
    · simp only
      linarith
    · simp only
      linarith
    · simp only
      rw [hfs]
      linarith

/-- C1 witness: the hypotheses and conclusion at the concrete input
`1920 × 1080` source, `12 × 8` target, margin `1`. -/
theorem calculate_positioning_fits_and_centers_witness :
    ((0 : ℚ) < 1920) ∧ ((0 : ℚ) < 1080) ∧ ((0 : ℚ) < 1) ∧
    ((0 : ℚ) < 12 - 2 * 1) ∧ ((0 : ℚ) < 8 - 2 * 1) ∧
    (∃ p, calculate_positioning { width := some 1920, height := some 1080 }
        { slideWidth := 12, slideHeight := 8, safeMargin := 1 } = some p ∧
      1 ≤ p.offsetX ∧ p.offsetX + 1920 * p.scale ≤ 12 - 1 ∧
      1 ≤ p.offsetY ∧ p.offsetY + 1080 * p.scale ≤ 8 - 1 ∧
      ((1920 * p.scale = 12 - 2 * 1 ∧
          p.offsetY - 1 = ((8 - 2 * 1) - 1080 * p.scale) / 2) ∨
       (1080 * p.scale = 8 - 2 * 1 ∧
          p.offsetX - 1 = ((12 - 2 * 1) - 1920 * p.scale) / 2))) :=
  ⟨by decide, by decide, by decide, by norm_num, by norm_num,
    calculate_positioning_fits_and_centers 1920 1080 12 8 1 (by decide)
      (by decide) (by decide) (by norm_num) (by norm_num)⟩

/-- C2 counterexample: a layer whose scaled width exceeds the canvas is
repositioned to `x = 0` but keeps its width, so its bounding box extends
past the canvas edge — the claimed invariant `x + width ≤ targetW` fails. -/
theorem calculate_layer_position_overflow_counterexample :
    ¬ ((calculate_layer_position c2OverflowLayer c2OverflowPos
          figmaConfig).x +
        (calculate_layer_position c2OverflowLayer c2OverflowPos
          figmaConfig).width ≤ c2OverflowPos.pptWidth) := by
  have hr : calculate_layer_position c2OverflowLayer c2OverflowPos
      figmaConfig = { x := 0, y := 0, width := 20, height := 20 } := by
    unfold calculate_layer_position c2OverflowLayer c2OverflowPos
    unfold boundPosition
    simp only
    have hw : max ((20 : ℚ) * 1) (1/10) = 20 := by
      rw [max_eq_left (by norm_num)]
      norm_num
    rw [hw]
    have hx : max (0 : ℚ) (min (0 + 0 * 1) (10 - 20)) = 0 := by
      rw [min_eq_right (by norm_num), max_eq_left (by norm_num)]
    have hy : max (0 : ℚ) (min (0 + 0 * 1) (5 - 20)) = 0 := by
      rw [min_eq_right (by norm_num), max_eq_left (by norm_num)]
    rw [hx, hy]
  rw [hr]
  show ¬ ((0 : ℚ) + 20 ≤ c2OverflowPos.pptWidth)
  unfold c2OverflowPos
  norm_num

/-- C2 as amended: the placement always satisfies `width, height ≥ 0.1`,
`x, y ≥ 0`, and the bounding box stays inside the canvas on an axis
whenever the (clamped) size fits on that axis; an element larger than the
canvas is repositioned to the origin side but keeps its size, so only the
conditional containment holds. -/
theorem calculate_layer_position_bounds (layer : PLayer)
    (positioning : Positioning) (config : Config) :
    (1/10 : ℚ) ≤ (calculate_layer_position layer positioning config).width ∧
    (1/10 : ℚ) ≤ (calculate_layer_position layer positioning config).height ∧
    0 ≤ (calculate_layer_position layer positioning config).x ∧
    0 ≤ (calculate_layer_position layer positioning config).y ∧
    ((calculate_layer_position layer positioning config).width ≤
        positioning.pptWidth →
      (calculate_layer_position layer positioning config).x +
        (calculate_layer_position layer positioning config).width ≤
        positioning.pptWidth) ∧
    ((calculate_layer_position layer positioning config).height ≤
        positioning.pptHeight →
      (calculate_layer_position layer positioning config).y +
        (calculate_layer_position layer positioning config).height ≤
        positioning.pptHeight) := by
  unfold calculate_layer_position
  exact boundPosition_props _ _

/-- C2 witness: the bounds at a small concrete layer on a large canvas,
with both conditional hypotheses discharged. -/
theorem calculate_layer_position_bounds_witness :
    ((calculate_layer_position c2InsideLayer c2WitnessPos figmaConfig).width ≤
      c2WitnessPos.pptWidth) ∧
    ((calculate_layer_position c2InsideLayer c2WitnessPos
        figmaConfig).height ≤ c2WitnessPos.pptHeight) ∧
    ((calculate_layer_position c2InsideLayer c2WitnessPos figmaConfig).x +
      (calculate_layer_position c2InsideLayer c2WitnessPos figmaConfig).width
        ≤ c2WitnessPos.pptWidth) ∧
    ((calculate_layer_position c2InsideLayer c2WitnessPos figmaConfig).y +
      (calculate_layer_position c2InsideLayer c2WitnessPos
        figmaConfig).height ≤ c2WitnessPos.pptHeight) := by
  have hw : (calculate_layer_position c2InsideLayer c2WitnessPos
      figmaConfig).width ≤ c2WitnessPos.pptWidth := by
    show max ((4 : ℚ) * 1) (1/10) ≤ 100
    rw [max_eq_left (by norm_num)]
    norm_num
  have hh : (calculate_layer_position c2InsideLayer c2WitnessPos
      figmaConfig).height ≤ c2WitnessPos.pptHeight := by
    show max ((3 : ℚ) * 1) (1/10) ≤ 50
    rw [max_eq_left (by norm_num)]
    norm_num
  exact ⟨hw, hh,
    (calculate_layer_position_bounds c2InsideLayer c2WitnessPos
      figmaConfig).2.2.2.2.1 hw,
    (calculate_layer_position_bounds c2InsideLayer c2WitnessPos
      figmaConfig).2.2.2.2.2 hh⟩

/-- C3: the layers surviving validation are emitted in non-decreasing
`zIndex` order, and for every `zIndex` value the emitted layers with that
value are exactly, and in the same order as, the validated input layers
with that value — so equal-`zIndex` layers keep their submitted relative
order through both stable sorts. -/
theorem emitted_layers_sorted_stable (layers : List RawLayer) :
    List.Pairwise (fun u v : PLayer => u.zIndex ≤ v.zIndex)
      (emitted_layer_order layers) ∧
    ∀ z : ℤ, (emitted_layer_order layers).filter
        (fun u => decide (u.zIndex = z)) =
      ((layers.map build_processed_layer).filter layer_type_valid).filter
        (fun u => decide (u.zIndex = z)) := by
  constructor
  · exact pairwise_pySortZ _
  · intro z
    unfold emitted_layer_order process_layers
    rw [filter_pySortZ, filter_pySortZ]

/-- C4: a layer of unknown type, a text layer with whitespace-only content,
and an image layer with falsy image data each produce no instruction; and
the per-slide loop is insensitive to how any one layer behaves — the
instructions of the surrounding layers survive whatever `f` does on `l`,
hence a raised exception never aborts the slide. -/
theorem process_layer_skips_and_isolation (l : PLayer)
    (f : PLayer → Except (List Char) (Option Instr))
    (ls1 ls2 : List PLayer) :
    (l.type ≠ some "TEXT".data → l.type ≠ some "SHAPE".data →
      l.type ≠ some "IMAGE".data → process_layer l = none) ∧
    (l.type = some "TEXT".data → pyStrip l.content = [] →
      process_layer l = none) ∧
    (l.type = some "IMAGE".data → l.imageData.getD [] = [] →
      process_layer l = none) ∧
    run_slide_layers f (ls1 ++ l :: ls2) =
      run_slide_layers f ls1 ++ run_slide_layers f [l] ++
        run_slide_layers f ls2 := by
  refine ⟨?_, ?_, ?_, ?_⟩
  · intro h1 h2 h3
    cases htype : l.type with
    | none => simp [process_layer, htype]
    | some t =>
      rw [htype] at h1 h2 h3
      have e2 : ¬ (t = "TEXT".data) := fun e => h1 (by rw [e])
      have e3 : ¬ (t = "SHAPE".data) := fun e => h2 (by rw [e])
      have e4 : ¬ (t = "IMAGE".data) := fun e => h3 (by rw [e])
      simp [process_layer, htype, e2, e3, e4]
  · intro ht hc
    have hTne : ("TEXT".data : List Char) ≠ [] := by decide
    simp only [process_layer, ht, if_true]
    rw [if_pos hc]
    simp only [ite_self]
  · intro ht hi
    have hIne : ("IMAGE".data : List Char) ≠ [] := by decide
    have hIT : ("IMAGE".data : List Char) ≠ "TEXT".data := by decide
    have hIS : ("IMAGE".data : List Char) ≠ "SHAPE".data := by decide
    simp only [process_layer, ht, if_true]
    rw [if_pos hi]
    rw [if_neg (show ¬ ((['I', 'M', 'A', 'G', 'E'] : List Char) = [])
        from by decide),
      if_neg (show ¬ ((['I', 'M', 'A', 'G', 'E'] : List Char) =
        ['T', 'E', 'X', 'T']) from by decide),
      if_neg (show ¬ ((['I', 'M', 'A', 'G', 'E'] : List Char) =
        ['S', 'H', 'A', 'P', 'E']) from by decide)]
  · rw [show l :: ls2 = [l] ++ ls2 from rfl, run_slide_layers_append,
      run_slide_layers_append, List.append_assoc]

/-- C4 witness: the three skip rules at concrete layers, and the loop
splitting around a concrete layer between two good text layers. -/
theorem process_layer_skips_and_isolation_witness :
    process_layer frameLayer = none ∧
    process_layer emptyTextLayer = none ∧
    process_layer emptyImageLayer = none ∧
    run_slide_layers okGen ([goodTextLayer] ++ frameLayer ::
        [goodTextLayer]) =
      run_slide_layers okGen [goodTextLayer] ++
        run_slide_layers okGen [frameLayer] ++
        run_slide_layers okGen [goodTextLayer] :=
  ⟨(process_layer_skips_and_isolation frameLayer okGen [] []).1
      (by decide) (by decide) (by decide),
   (process_layer_skips_and_isolation emptyTextLayer okGen [] []).2.1
      (by decide) (by decide),
   (process_layer_skips_and_isolation emptyImageLayer okGen [] []).2.2.1
      (by decide) (by decide),
   (process_layer_skips_and_isolation frameLayer okGen [goodTextLayer]
      [goodTextLayer]).2.2.2⟩

/-- C5 counterexample: a slide with an explicitly supplied zero height does
not receive the default 1080 — the zero flows into the aspect computation
and the transform fails with a division by zero (modelled as `none`),
contradicting the claim that the defaults replace non-positive values and
the computation always succeeds. -/
theorem explicit_zero_dims_counterexample :
    calculate_positioning { width := some 1920, height := some 0 }
      figmaConfig = none := by
  rfl

/-- C5 as amended: the defaults 1920 × 1080 replace the slide dimensions
only when the corresponding keys are absent; in that case the transform
computation succeeds under the pipeline configuration. Explicitly supplied
zero or negative values are used as-is, and a zero height makes the
computation fail. -/
theorem absent_dims_use_defaults (s : SlideDims) (hw : s.width = none)
    (hh : s.height = none) :
    ∃ p, calculate_positioning s figmaConfig = some p ∧
      p.figmaWidth = 1920 ∧ p.figmaHeight = 1080 := by
  obtain ⟨w, h⟩ := s
  simp only at hw hh
  subst hw
  subst hh
  unfold calculate_positioning figmaConfig
  simp only [Option.getD_none]
  rw [if_neg (by norm_num), if_neg (by norm_num), if_neg (by norm_num)]
  exact ⟨_, rfl, rfl, rfl⟩

/-- C5 witness: the amended claim at the slide with both keys absent. -/
theorem absent_dims_use_defaults_witness :
    (({ width := none, height := none } : SlideDims).width = none) ∧
    (({ width := none, height := none } : SlideDims).height = none) ∧
    ∃ p, calculate_positioning { width := none, height := none }
        figmaConfig = some p ∧ p.figmaWidth = 1920 ∧ p.figmaHeight = 1080 :=
  ⟨rfl, rfl, absent_dims_use_defaults _ rfl rfl⟩

/-- C6 counterexample: for the Figma weight string `"bold"`, the StyleMapper
predicate `is_bold_weight` is true (case-insensitive containment), but
`add_text_layer` emits `bold = false`, because lines 160-161 of
`pptx_generator.py` test the raw case-sensitive substrings `'Bold'`/`'700'`
instead of calling the predicate — so the emitted flag does not equal the
predicate. -/
theorem text_flags_ignore_style_mapper_counterexample :
    (add_text_layer lowerBoldLayer).bold ≠
      is_bold_weight lowerBoldLayer.style.fontWeight ∧
    (add_text_layer lowerBoldLayer).bold = false ∧
    is_bold_weight lowerBoldLayer.style.fontWeight = true := by
  refine ⟨?_, ?_, ?_⟩ <;> decide

/-- C6 as amended: the emitted bold flag is true exactly when the raw font
weight string (defaulted to `"Regular"`) contains `"Bold"` or `"700"` as a
case-sensitive substring, and the italic flag exactly when it contains
`"Italic"`; the StyleMapper predicates `is_bold_weight`/`is_italic_style`
are not consulted by `add_text_layer`. -/
theorem text_flags_raw_substring (l : PLayer) :
    ((add_text_layer l).bold = true ↔
      (OccursIn "Bold".data (l.style.fontWeight.getD "Regular".data) ∨
        OccursIn "700".data (l.style.fontWeight.getD "Regular".data))) ∧
    ((add_text_layer l).italic = true ↔
      OccursIn "Italic".data (l.style.fontWeight.getD "Regular".data)) := by
  constructor
  · simp only [add_text_layer, Bool.or_eq_true, containsSub_iff]
  · simp only [add_text_layer, containsSub_iff]

/-- C7 counterexample: `normalize_color` compares against
`"transparent"`/`"none"` case-sensitively, so the case-variant inputs
`"Transparent"` and `"NONE"` do not map to `None` — they fall through to
the black fallback. -/
theorem normalize_color_case_sensitive_counterexample :
    normalize_color (ColorValue.str "Transparent".data) =
        some "#000000".data ∧
    normalize_color (ColorValue.str "Transparent".data) ≠ none ∧
    normalize_color (ColorValue.str "NONE".data) = some "#000000".data ∧
    normalize_color (ColorValue.str "NONE".data) ≠ none := by
  refine ⟨?_, ?_, ?_, ?_⟩ <;> decide

/-- C7 as amended: a string input maps to `None` (no fill/stroke) exactly
when it is the exact lowercase string `"transparent"` or `"none"`; the
comparison is case-sensitive. -/
theorem normalize_color_null_iff_exact (s : List Char) :
    normalize_color (ColorValue.str s) = none ↔
      s = "transparent".data ∨ s = "none".data := by
  by_cases h1 : s = []
  · subst h1
    simp only [normalize_color, if_pos rfl]
    exact iff_of_false (by simp) (by decide)
  · by_cases h2 : leads "#".data s = true
    · simp only [normalize_color, if_neg h1, if_pos h2]
      refine iff_of_false (by simp) ?_
      rintro (rfl | rfl) <;> exact absurd h2 (by decide)
    · by_cases h3 : s = "transparent".data ∨ s = "none".data
      · simp only [normalize_color, if_neg h1, if_neg h2, if_pos h3]
        exact iff_of_true (by simp) h3
      · simp only [normalize_color, if_neg h1, if_neg h2, if_neg h3]
        refine iff_of_false ?_ h3
        split_ifs <;> simp

/-! ### Helper lemmas: hex round trip -/

theorem length_eq_six {α : Type} {l : List α} :
    l.length = 6 ↔ ∃ a b c d e f, l = [a, b, c, d, e, f] := by
  constructor
  · intro h
    rcases l with _ | ⟨a, l⟩
    · simp only [List.length_nil] at h; omega
    rcases l with _ | ⟨b, l⟩
    · simp only [List.length_cons, List.length_nil] at h; omega
    rcases l with _ | ⟨c, l⟩
    · simp only [List.length_cons, List.length_nil] at h; omega
    rcases l with _ | ⟨d, l⟩
    · simp only [List.length_cons, List.length_nil] at h; omega
    rcases l with _ | ⟨e, l⟩
    · simp only [List.length_cons, List.length_nil] at h; omega
    rcases l with _ | ⟨f, l⟩
    · simp only [List.length_cons, List.length_nil] at h; omega
    rcases l with _ | ⟨g, l⟩
    · exact ⟨a, b, c, d, e, f, rfl⟩
    · simp only [List.length_cons] at h; omega
  · rintro ⟨a, b, c, d, e, f, rfl⟩
    rfl

theorem dropWhile_hash_hex {core : List Char} (h : core.all isHexDig = true)
    (hne : core ≠ []) :
    core.dropWhile (fun c => decide (c = '#')) = core := by
  cases core with
  | nil => exact absurd rfl hne
  | cons c rest =>
    rw [List.all_cons, Bool.and_eq_true] at h
    have hch : (decide (c = '#')) = false := by
      by_cases e : c = '#'
      · rw [e] at h
        exact absurd h.1 (by decide)
      · simp [e]
    simp [List.dropWhile, hch]

theorem upper_hash : toUpperChar '#' = '#' := by decide

/-- C8: for a core of 3 or 6 hex digits, with or without a leading `'#'`,
parsing with `hex_to_rgb` and re-formatting with `rgb_to_hex` yields the
normalized form: `'#'` followed by the uppercase 6-digit expansion of the
core (3-digit cores double each digit). -/
theorem hex_round_trip_normalizes (core s : List Char)
    (hhex : core.all isHexDig = true)
    (hlen : core.length = 3 ∨ core.length = 6)
    (hs : s = core ∨ s = '#' :: core) :
    rgb_to_hex ((hex_to_rgb s).1 : ℤ) ((hex_to_rgb s).2.1 : ℤ)
        ((hex_to_rgb s).2.2 : ℤ) =
      '#' :: (expandHex3 core).map toUpperChar := by
  have hne : core ≠ [] := by
    rcases hlen with h | h <;> (intro e; rw [e] at h; simp at h)
  have hsne : ¬ (s = []) := by
    rcases hs with rfl | rfl
    · exact hne
    · simp
  have hdrop : (s.dropWhile fun c => decide (c = '#')) = core := by
    rcases hs with rfl | rfl
    · exact dropWhile_hash_hex hhex hne
    · rw [List.dropWhile_cons]
      rw [if_pos (show (fun c => decide (c = '#')) '#' = true from by decide)]
      exact dropWhile_hash_hex hhex hne
  unfold hex_to_rgb
  rw [if_neg hsne, hdrop]
  rcases hlen with h3 | h6
  · obtain ⟨a, b, c, rfl⟩ := List.length_eq_three.mp h3
    simp only [List.all_cons, List.all_nil, Bool.and_true,
      Bool.and_eq_true] at hhex
    obtain ⟨ha, hb, hc⟩ := hhex
    have hexp : expandHex3 [a, b, c] = [a, a, b, b, c, c] := by
      simp [expandHex3, doubleChars]
    rw [hexp]
    have hmatch : pyMatchHex 6 [a, a, b, b, c, c] = true := by
      simp [pyMatchHex, ha, hb, hc]
    unfold parseHexCore
    rw [if_pos hmatch]
    unfold rgb_to_hex
    rw [List.map_cons, List.map_append, List.map_append]
    rw [show ((hexVal a * 16 + hexVal a, hexVal b * 16 + hexVal b,
      hexVal c * 16 + hexVal c) : Nat × Nat × Nat).1 =
        hexVal a * 16 + hexVal a from rfl]
    rw [pairFmt ha ha, pairFmt hb hb, pairFmt hc hc, upper_hash]
    simp [List.map_cons]
  · obtain ⟨a, b, c, d, e, f, rfl⟩ := length_eq_six.mp h6
    simp only [List.all_cons, List.all_nil, Bool.and_true,
      Bool.and_eq_true] at hhex
    obtain ⟨ha, hb, hc, hd, he, hf⟩ := hhex
    have hexp : expandHex3 [a, b, c, d, e, f] = [a, b, c, d, e, f] := by
      simp [expandHex3]
    rw [hexp]
    have hmatch : pyMatchHex 6 [a, b, c, d, e, f] = true := by
      simp [pyMatchHex, ha, hb, hc, hd, he, hf]
    unfold parseHexCore
    rw [if_pos hmatch]
    unfold rgb_to_hex
    rw [List.map_cons, List.map_append, List.map_append]
    rw [pairFmt ha hb, pairFmt hc hd, pairFmt he hf, upper_hash]
    simp [List.map_cons]

/-- C8 witness: the round trip at `"#a0F"`. -/
theorem hex_round_trip_normalizes_witness :
    ("a0F".data.all isHexDig = true) ∧
    ("a0F".data.length = 3 ∨ "a0F".data.length = 6) ∧
    ("#a0F".data = "a0F".data ∨ "#a0F".data = '#' :: "a0F".data) ∧
    rgb_to_hex ((hex_to_rgb "#a0F".data).1 : ℤ)
        ((hex_to_rgb "#a0F".data).2.1 : ℤ)
        ((hex_to_rgb "#a0F".data).2.2 : ℤ) =
      '#' :: (expandHex3 "a0F".data).map toUpperChar :=
  ⟨by decide, Or.inl (by decide), Or.inr (by decide),
    hex_round_trip_normalizes "a0F".data "#a0F".data (by decide)
      (Or.inl (by decide)) (Or.inr (by decide))⟩

/-- C9: for any input whose `'#'`-stripped core matches neither the 3-digit
nor the 6-digit hex pattern (in the Python sense of
`re.match(r"^...$", ·)`), `hex_to_rgb` returns black `(0, 0, 0)`; being a
total Lean function, it never raises. -/
theorem invalid_hex_returns_black (s : List Char)
    (h3 : pyMatchHex 3 (s.dropWhile fun c => decide (c = '#')) = false)
    (h6 : pyMatchHex 6 (s.dropWhile fun c => decide (c = '#')) = false) :
    hex_to_rgb s = (0, 0, 0) := by
  unfold hex_to_rgb
  split_ifs with hs
  · rfl
  · unfold expandHex3
    split_ifs with hlen
    · obtain ⟨a, b, c, hcore⟩ := List.length_eq_three.mp hlen
      rw [hcore] at h3 ⊢
      have hdc : doubleChars [a, b, c] = [a, a, b, b, c, c] := by
        simp [doubleChars]
      rw [hdc]
      unfold parseHexCore
      rw [if_neg ?cond]
      case cond =>
        intro hm
        cases ha : isHexDig a <;> cases hb : isHexDig b <;>
          cases hc : isHexDig c <;> simp_all [pyMatchHex]
    · unfold parseHexCore
      rw [if_neg (by rw [h6]; exact Bool.false_ne_true)]

/-- C9 witness: the hypotheses and conclusion at the malformed input
`"xyz"`. -/
theorem invalid_hex_returns_black_witness :
    (pyMatchHex 3 ("xyz".data.dropWhile fun c => decide (c = '#')) =
      false) ∧
    (pyMatchHex 6 ("xyz".data.dropWhile fun c => decide (c = '#')) =
      false) ∧
    hex_to_rgb "xyz".data = (0, 0, 0) :=
  ⟨by decide, by decide,
    invalid_hex_returns_black "xyz".data (by decide) (by decide)⟩

/-- C10: `normalize_color` returns either `None` or a string starting with
`'#'`; and a string input already starting with `'#'` is returned
unchanged, with no validation of the remaining characters. -/
theorem normalize_color_hash_shape (v : ColorValue) :
    (∀ s, normalize_color v = some s → s.head? = some '#') ∧
    (∀ s, v = ColorValue.str s → s.head? = some '#' →
      normalize_color v = some s) := by
  constructor
  · intro s hs
    cases v with
    | null =>
      simp only [normalize_color, Option.some.injEq] at hs
      subst hs
      decide
    | str s0 =>
      simp only [normalize_color] at hs
      split_ifs at hs with h1 h2 h3 h4
      · rw [Option.some.injEq] at hs
        subst hs
        decide
      · rw [Option.some.injEq] at hs
        subst hs
        obtain ⟨t, rfl⟩ := (leads_iff "#".data s0).mp h2
        rfl
      · rw [Option.some.injEq] at hs
        subst hs
        rfl
      · rw [Option.some.injEq] at hs
        subst hs
        decide
    | figmaDict r g b =>
      simp only [normalize_color] at hs
      split_ifs at hs
      · rw [Option.some.injEq] at hs
        subst hs
        unfold figma_rgb_to_hex rgb_to_hex
        rw [List.map_cons, upper_hash]
        rfl
      · rw [Option.some.injEq] at hs
        subst hs
        decide
    | other =>
      simp only [normalize_color, Option.some.injEq] at hs
      subst hs
      decide
  · rintro s rfl hh
    obtain ⟨c, t, rfl⟩ : ∃ c t, s = c :: t := by
      cases s with
      | nil => simp at hh
      | cons c t => exact ⟨c, t, rfl⟩
    have hc : c = '#' := by simpa using hh
    subst hc
    simp only [normalize_color]
    rw [if_neg (by simp), if_pos (by simp [leads])]

/-- C10 witness: the string `"#ZZZZZZ"` starts with `'#'` and passes
through unchanged even though its tail is not hexadecimal. -/
theorem normalize_color_hash_shape_witness :
    ("#ZZZZZZ".data.head? = some '#') ∧
    normalize_color (ColorValue.str "#ZZZZZZ".data) =
      some "#ZZZZZZ".data :=
  ⟨by decide,
    (normalize_color_hash_shape (ColorValue.str "#ZZZZZZ".data)).2
      "#ZZZZZZ".data rfl (by decide)⟩
